import Mathlib

/-!
Verification of the missile-defense simulation core.

Shallow embedding of the event-pipeline logic of the repository
`missile-defense-sim`: the radar detection subsystem
(`radar_service/radar_logic.py`), the simulation engine
(`simulation_service/simulation_engine.py`), the battery controller
(`battery_sim/battery_sim.py`) and the command center
(`command_center/command_logic.py`).  Python floats are modelled as exact
numbers (`ℚ` where the code is pure arithmetic, `ℝ` where `math.sqrt` /
`math.cos` appear); Python functions that can return `None` become
`Option`-valued functions; a caught exception that makes a handler return
early is modelled by the corresponding no-op result.
-/

namespace MissileDefense

/-! ### Radar subsystem — `radar_service/radar_logic.py` -/

namespace RadarLogic

/-- Embedding of `RadarLogic._calculate_update_interval` (`radar_service/radar_logic.py`,
lines 133-145).  `base_interval = 1000`, `base_sweep_rate = 60.0`; for a
non-positive sweep rate the code returns 1000; otherwise
`interval = int(base_interval * (base_sweep_rate / sweep_rate))` — Python
`int()` truncates toward zero, which on this positive quantity is the floor —
and the result is clamped by `max(100, min(5000, interval))`. -/
def calculate_update_interval (sweep_rate : ℚ) : ℤ :=
  if sweep_rate ≤ 0 then 1000
  else max 100 (min 5000 ⌊(1000 : ℚ) * (60 / sweep_rate)⌋)

/-- Modelled from the spec sentence for C9: the update interval claimed is
`clamp(1000 · (60 / sweep_rate_deg_per_sec), 100, 5000)` with no integer
truncation of the quotient. -/
def spec_update_interval (sweep_rate : ℚ) : ℚ :=
  max 100 (min 5000 ((1000 : ℚ) * (60 / sweep_rate)))

/-- Embedding of `RadarLogic._calculate_detection_probability`
(`radar_service/radar_logic.py`, lines 271-294).
`range_factor = 1 - distance / detection_range_m`,
`altitude_factor = min(1.0, z / 10000.0)` (no clamp below at 0),
`signal_factor = 1 + signal_strength_db / 100`, base probability `0.8`;
the Gaussian draw `np.random.normal(0, 0.05)` added afterwards is modelled
by the explicit argument `noise`; the result is `max(0.0, min(1.0, p))`. -/
def calculate_detection_probability
    (detection_range_m signal_strength_db distance z noise : ℚ) : ℚ :=
  max 0 (min 1
    (0.8 * (1 - distance / detection_range_m) * min 1 (z / 10000)
       * (1 + signal_strength_db / 100) + noise))

/-- Modelled from the spec sentence for C8: the same formula but with
`altitude_factor = clamp(z/10000, 0, 1)`, clamped below at 0 as well. -/
def spec_detection_probability
    (detection_range_m signal_strength_db distance z noise : ℚ) : ℚ :=
  max 0 (min 1
    (0.8 * (1 - distance / detection_range_m) * max 0 (min 1 (z / 10000))
       * (1 + signal_strength_db / 100) + noise))

end RadarLogic

/-! ### Simulation engine — `simulation_service/simulation_engine.py` -/

namespace SimulationEngine

/-- The `Vector3D` dataclass (`simulation_engine.py`, lines 33-55). -/
@[ext]
structure Vector3D where
  x : ℝ
  y : ℝ
  z : ℝ

/-- Embedding of `Vector3D.magnitude`: `math.sqrt(x**2 + y**2 + z**2)`. -/
noncomputable def Vector3D.magnitude (v : Vector3D) : ℝ :=
  Real.sqrt (v.x ^ 2 + v.y ^ 2 + v.z ^ 2)

/-- Embedding of `Vector3D.normalize`: the zero vector when the magnitude is 0, otherwise
the componentwise quotient by the magnitude. -/
noncomputable def Vector3D.normalize (v : Vector3D) : Vector3D :=
  if v.magnitude = 0 then ⟨0, 0, 0⟩
  else ⟨v.x / v.magnitude, v.y / v.magnitude, v.z / v.magnitude⟩

/-- Embedding of `Vector3D.__sub__`. -/
def Vector3D.sub (v w : Vector3D) : Vector3D :=
  ⟨v.x - w.x, v.y - w.y, v.z - w.z⟩

/-- Embedding of `Vector3D.__mul__` (scalar multiplication). -/
def Vector3D.smul (v : Vector3D) (c : ℝ) : Vector3D :=
  ⟨v.x * c, v.y * c, v.z * c⟩

/-- The initial-velocity computation of `SimulationEngine.create_missile`
(`simulation_engine.py`, lines 349-360):
`initial_speed = min(float(platform.max_speed_mps), 1000.0)`; an underwater
launch (`launch_alt < 0`) gets the fixed vector `(0, 0, 50)`; otherwise the
velocity is `direction_to_target.normalize() * initial_speed` when the
direction to the target is non-degenerate, and `(0, 0, initial_speed)`
when launcher and target coincide.  Positions are `(lon, lat, alt)`. -/
noncomputable def initial_velocity (max_speed_mps : ℝ) (launch_pos target_pos : Vector3D) :
    Vector3D :=
  let initial_speed := min max_speed_mps 1000
  if launch_pos.z < 0 then ⟨0, 0, 50⟩
  else
    let direction_to_target := target_pos.sub launch_pos
    if 0 < direction_to_target.magnitude
    then direction_to_target.normalize.smul initial_speed
    else ⟨0, 0, initial_speed⟩

/-- The thrust-ratio selection inside the fuel-consumption block of
`SimulationEngine.update_missile_physics` (`simulation_engine.py`,
lines 429-443): underwater (`z < 0`) the ratio is 0.5 for the first three
seconds after launch and 0.9 after; in the air it is 1.0 below 1 km,
0.9 below 10 km and 0.7 above. -/
noncomputable def thrust_ratio (z elapsed : ℝ) : ℝ :=
  if z < 0 then (if elapsed < 3 then 0.5 else 0.9)
  else if z < 1000 then 1.0
  else if z < 10000 then 0.9
  else 0.7

/-- The fuel update of `SimulationEngine.update_missile_physics`
(`simulation_engine.py`, lines 429-445): only a missile with
`fuel_remaining > 0` and `status == "active"` consumes fuel, and the new
level is `max(0, fuel_remaining - fuel_consumption_rate * ratio * dt)`. -/
noncomputable def update_fuel (fuel_remaining : ℝ) (status : String)
    (z elapsed fuel_consumption_rate dt : ℝ) : ℝ :=
  if 0 < fuel_remaining ∧ status = "active"
  then max 0 (fuel_remaining - fuel_consumption_rate * thrust_ratio z elapsed * dt)
  else fuel_remaining

end SimulationEngine

/-! ### Battery controller — `battery_sim/battery_sim.py` -/

namespace BatterySim

/-- A `{'lat': …, 'lon': …, 'alt': …}` position dictionary as used by
`BatterySim.get_battery_position` and the engagement orders. -/
structure GeoPos where
  lat : ℝ
  lon : ℝ
  alt : ℝ

/-- The `BatteryCapability` dataclass (`battery_sim.py`, lines 32-39). -/
structure BatteryCapability where
  max_range_m : ℝ
  max_altitude_m : ℝ
  accuracy_percent : ℝ
  reload_time_sec : ℝ
  max_speed_mps : ℝ
  blast_radius_m : ℝ

/-- The `EngagementOrder` dataclass (`battery_sim.py`, lines 41-47). -/
structure EngagementOrder where
  target_missile_id : String
  intercept_point : GeoPos
  intercept_altitude : ℝ
  probability_of_success : ℝ
  timestamp : ℝ

/-- The `simulation.launch` message published by `BatterySim.launch_missile`
(`battery_sim.py`, lines 281-300), restricted to its defense-relevant
fields. -/
structure LaunchMessage where
  launch_callsign : String
  launch_pos : GeoPos
  target_lat : ℝ
  target_lon : ℝ
  target_alt : ℝ
  missile_type : String
  target_missile_id : String
  blast_radius : ℝ

/-- The mutable state of a `BatterySim` instance (`battery_sim.py`,
lines 49-59).  `battery_pos` holds the installation geometry that
`get_battery_position` reads from the database (modelled as always
available). -/
structure BatterySimState where
  callsign : String
  status : String
  ammo_count : ℤ
  last_launch_time : ℝ
  pending_engagements : List EngagementOrder
  current_engagement : Option EngagementOrder
  battery_capability : BatteryCapability
  battery_pos : GeoPos

/-- Embedding of `BatterySim.can_engage` (`battery_sim.py`, lines 174-187): requires
status `ready`, positive ammo and an elapsed reload interval;
`current_time` is the `time.time()` value, passed explicitly. -/
noncomputable def can_engage (current_time : ℝ) (s : BatterySimState) : Bool :=
  if s.status ≠ "ready" then false
  else if s.ammo_count ≤ 0 then false
  else if current_time - s.last_launch_time < s.battery_capability.reload_time_sec then false
  else true

/-- Embedding of `BatterySim.calculate_distance` (`battery_sim.py`, lines 217-227):
latitude and longitude differences are converted to metres
(`111000` m/degree, cosine-adjusted longitude at `pos1`'s latitude) and
combined with the altitude difference in a Euclidean norm. -/
noncomputable def calculate_distance (pos1 pos2 : GeoPos) : ℝ :=
  Real.sqrt (((pos1.lat - pos2.lat) * 111000) ^ 2
    + ((pos1.lon - pos2.lon) * 111000 * Real.cos (pos1.lat * Real.pi / 180)) ^ 2
    + (pos1.alt - pos2.alt) ^ 2)

/-- Embedding of `BatterySim.prepare_for_engagement` (`battery_sim.py`, lines 189-216):
returns `False` without touching the state when `can_engage` fails, when the
intercept point is beyond `max_range_m`, or when the intercept altitude
exceeds `max_altitude_m`; otherwise sets the status to `preparing` (the
5-second preparation sleep has no further state effect) and returns
`True`. -/
noncomputable def prepare_for_engagement (current_time : ℝ) (s : BatterySimState)
    (order : EngagementOrder) : Bool × BatterySimState :=
  if ¬ can_engage current_time s then (false, s)
  else if calculate_distance s.battery_pos order.intercept_point
       > s.battery_capability.max_range_m then (false, s)
  else if order.intercept_altitude > s.battery_capability.max_altitude_m then (false, s)
  else (true, { s with status := "preparing" })

/-- Embedding of `BatterySim.launch_missile` (`battery_sim.py`, lines 230-315): returns
`False` unless the status is `preparing`; otherwise decrements the ammo
count, publishes one `simulation.launch` message of type `defense` with the
battery's own geometry as launch location, records the launch time and moves
to `reloading`. -/
noncomputable def launch_missile (current_time : ℝ) (s : BatterySimState)
    (order : EngagementOrder) : Bool × BatterySimState × List LaunchMessage :=
  if s.status ≠ "preparing" then (false, s, [])
  else
    (true,
      { s with status := "reloading",
               ammo_count := s.ammo_count - 1,
               last_launch_time := current_time },
      [{ launch_callsign := s.callsign,
         launch_pos := s.battery_pos,
         target_lat := order.intercept_point.lat,
         target_lon := order.intercept_point.lon,
         target_alt := order.intercept_altitude,
         missile_type := "defense",
         target_missile_id := order.target_missile_id,
         blast_radius := s.battery_capability.blast_radius_m }])

/-- Embedding of `BatterySim.process_engagements` (`battery_sim.py`, lines 361-386):
returns immediately when the pending queue is empty; with
`current_engagement` unset, prepares for the head order — on success the
order becomes current, on failure it is dropped — and in both cases pops it
from the queue; with a current engagement set, attempts the launch and
clears the current engagement whether or not it succeeded. -/
noncomputable def process_engagements (current_time : ℝ) (s : BatterySimState) :
    BatterySimState × List LaunchMessage :=
  match s.pending_engagements with
  | [] => (s, [])
  | order :: rest =>
    match s.current_engagement with
    | none =>
      let result := prepare_for_engagement current_time s order
      if result.1
      then ({ result.2 with current_engagement := some order,
                            pending_engagements := rest }, [])
      else ({ result.2 with pending_engagements := rest }, [])
    | some current =>
      let result := launch_missile current_time s current
      ({ result.2.1 with current_engagement := none }, result.2.2)

/-- Embedding of `BatterySim.handle_engagement_order` (`battery_sim.py`, lines 129-151).
The method runs `data = msg.data.decode()` and then evaluates
`data['type']`.  `decode()` yields a Python `str`, and subscripting a `str`
with the string key `'type'` raises `TypeError` (the `json.loads` call
present in the other services' handlers is missing here), so control jumps
to the surrounding `except` block on every message and the method returns
with the state unmodified: no arriving order is ever appended to
`pending_engagements`. -/
def handle_engagement_order (s : BatterySimState) (raw_message : String) :
    BatterySimState :=
  s

/-- The module-level `engagement_order_handler` closure of `main()` in the
same file (`battery_sim.py`, lines 437-453).  It parses the JSON, but then
evaluates `logic.EngagementOrder(...)` (line 444): `BatteryLogic` (defined
in `battery_logic.py`) has no `EngagementOrder` attribute — that dataclass
lives at module level — so the lookup raises `AttributeError` before the
`append` at line 451 and the `except` block returns with the queue
unmodified.  (`main()` in fact crashes even earlier: line 433 calls
`BatteryMessagingService(callsign, db_pool, nats_client)` whose constructor
takes `(db_dsn, nats_url)`, so this handler is never subscribed at all.)
Like `handle_engagement_order`, it never appends an order. -/
def engagement_order_handler (pending_engagements : List EngagementOrder)
    (raw_message : String) : List EngagementOrder :=
  pending_engagements

end BatterySim

/-- Concrete engagement order used to instantiate C5: intercept altitude
200 km, intercept point at the battery itself. -/
noncomputable def c5_order : BatterySim.EngagementOrder :=
  { target_missile_id := "m1",
    intercept_point := ⟨0, 0, 0⟩,
    intercept_altitude := 200000,
    probability_of_success := 0.5,
    timestamp := 0 }

/-- Concrete ready battery-controller state used to instantiate C5 (the
default capability values of `load_battery_capabilities`: 200 km range,
150 km ceiling). -/
noncomputable def c5_state : BatterySim.BatterySimState :=
  { callsign := "DEF_AEG_01",
    status := "ready",
    ammo_count := 4,
    last_launch_time := 0,
    pending_engagements := [c5_order],
    current_engagement := none,
    battery_capability :=
      { max_range_m := 200000, max_altitude_m := 150000, accuracy_percent := 85,
        reload_time_sec := 30, max_speed_mps := 3500, blast_radius_m := 50 },
    battery_pos := ⟨0, 0, 0⟩ }

/-- Concrete engagement order already queued when instantiating C6. -/
noncomputable def c6_queued_order : BatterySim.EngagementOrder :=
  { target_missile_id := "m1",
    intercept_point := ⟨0, 0, 0⟩,
    intercept_altitude := 150,
    probability_of_success := 0.1,
    timestamp := 0 }

/-- Battery-controller state whose pending queue already holds an order for
missile `m1`. -/
noncomputable def c6_state : BatterySim.BatterySimState :=
  { callsign := "DEF_AEG_01", status := "ready", ammo_count := 4,
    last_launch_time := 0, pending_engagements := [c6_queued_order],
    current_engagement := none,
    battery_capability :=
      { max_range_m := 200000, max_altitude_m := 150000, accuracy_percent := 85,
        reload_time_sec := 30, max_speed_mps := 3500, blast_radius_m := 50 },
    battery_pos := ⟨0, 0, 0⟩ }

/-- A raw duplicate engagement-order message for missile `m1`, as the
command center publishes it. -/
def c6_raw_message : String :=
  "\x7b\"type\": \"engagement_order\", \"target_missile_id\": \"m1\"\x7d"

/-! ### Command center — `command_center/command_logic.py` -/

namespace CommandLogic

/-- A `(lat, lon, alt)` position tuple as stored in
`BatteryCapability.position` and `ThreatAssessment.current_position`. -/
structure LatLonAlt where
  lat : ℝ
  lon : ℝ
  alt : ℝ

/-- The `BatteryCapability` dataclass of the command center
(`command_logic.py`, lines 39-50), with `accuracy = accuracy_percent / 100`
as converted by `load_available_batteries`. -/
structure BatteryCapability where
  callsign : String
  position : LatLonAlt
  max_range : ℝ
  max_altitude : ℝ
  accuracy : ℝ
  reload_time : ℝ
  ammo_count : ℤ
  status : String
  time_to_ready : ℝ

/-- The fields of the `ThreatAssessment` dataclass (`command_logic.py`,
lines 27-37) read by the engagement pipeline. -/
structure ThreatAssessment where
  missile_id : String
  current_position : LatLonAlt
  time_to_impact : ℝ
  threat_level : String

/-- The `InterceptSolution` dataclass (`command_logic.py`, lines 52-59). -/
structure InterceptSolution where
  battery_callsign : String
  intercept_point : LatLonAlt
  intercept_time : ℝ
  intercept_altitude : ℝ
  probability_of_success : ℝ
  time_to_launch : ℝ

/-- One entry of the per-missile attempt ledger appended by
`order_engagement` (battery callsign and estimated probability; the
wall-clock timestamp is irrelevant to the claims). -/
structure EngagementAttempt where
  battery : String
  probability : ℝ

/-- Python `dict` lookup, on a string-keyed association list. -/
def dict_get {α : Type} : List (String × α) → String → Option α
  | [], _ => none
  | (k, v) :: rest, key => if key = k then some v else dict_get rest key

/-- The Euclidean distance expression of `calculate_intercept_solution`
(`command_logic.py`, lines 390-394): note that it mixes degrees (lat, lon)
and metres (alt) exactly as the source does. -/
noncomputable def threat_distance (battery_pos threat_pos : LatLonAlt) : ℝ :=
  Real.sqrt ((battery_pos.lat - threat_pos.lat) ^ 2
    + (battery_pos.lon - threat_pos.lon) ^ 2
    + (battery_pos.alt - threat_pos.alt) ^ 2)

/-- Embedding of `CommandLogic.calculate_intercept_solution` (`command_logic.py`,
lines 378-441).  Guards in source order: a threat at or below the surface is
rejected; a threat farther than `max_range` is rejected; a threat above
`max_altitude` is rejected.  The body then builds the midpoint intercept
solution with `probability = accuracy * (1 - distance / max_range)`.  When
`max_range = 0`, the probability expression raises `ZeroDivisionError`,
which the surrounding `except` converts to `None` (this branch is reachable
only when the distance is also 0). -/
noncomputable def calculate_intercept_solution (threat : ThreatAssessment)
    (battery : BatteryCapability) : Option InterceptSolution :=
  let distance := threat_distance battery.position threat.current_position
  if threat.current_position.alt ≤ 0 then none
  else if distance > battery.max_range then none
  else if threat.current_position.alt > battery.max_altitude then none
  else if battery.max_range = 0 then none
  else some
    { battery_callsign := battery.callsign,
      intercept_point :=
        ⟨(battery.position.lat + threat.current_position.lat) / 2,
         (battery.position.lon + threat.current_position.lon) / 2,
         (battery.position.alt + threat.current_position.alt) / 2⟩,
      intercept_time := threat.time_to_impact * 0.5,
      intercept_altitude := (battery.position.alt + threat.current_position.alt) / 2,
      probability_of_success := battery.accuracy * (1 - distance / battery.max_range),
      time_to_launch := battery.time_to_ready }

/-- The loop body of `CommandLogic.find_best_intercept_solution`
(`command_logic.py`, lines 347-376), folding over the candidate batteries
with the running `(best_solution, best_score)` accumulator (initially
`(None, 0)`).  Batteries that are not `active` or have no ammo are skipped;
a candidate replaces the accumulator when its score
`probability_of_success / (time_to_launch + 1)` strictly exceeds the running
best.  A solution with `time_to_launch = -1` would make the score raise
`ZeroDivisionError`; no handler catches it inside this method, so it is
modelled as an `Except.error` that aborts the fold. -/
noncomputable def find_best_aux (threat : ThreatAssessment) :
    List BatteryCapability → Option InterceptSolution × ℝ →
      Except Unit (Option InterceptSolution × ℝ)
  | [], acc => .ok acc
  | battery :: rest, acc =>
    if battery.status ≠ "active" ∨ battery.ammo_count ≤ 0
    then find_best_aux threat rest acc
    else
      match calculate_intercept_solution threat battery with
      | none => find_best_aux threat rest acc
      | some solution =>
        if solution.time_to_launch + 1 = 0 then .error ()
        else if solution.probability_of_success / (solution.time_to_launch + 1) > acc.2
        then find_best_aux threat rest
          (some solution, solution.probability_of_success / (solution.time_to_launch + 1))
        else find_best_aux threat rest acc

/-- Embedding of `CommandLogic.find_best_intercept_solution` (`command_logic.py`,
lines 347-376). -/
noncomputable def find_best_intercept_solution (threat : ThreatAssessment)
    (batteries : List BatteryCapability) : Except Unit (Option InterceptSolution) :=
  Except.map Prod.fst (find_best_aux threat batteries (none, 0))

/-- The constant `self.max_retries = 3` set in `CommandLogic.__init__`
(`command_logic.py`, line 70). -/
def max_retries : ℕ := 3

/-- The `CommandLogic` state read and written by the engagement pipeline:
`active_threats`, `available_batteries` and the `engagement_attempts`
ledger (`command_logic.py`, lines 66-68). -/
structure CommandState where
  active_threats : List (String × ThreatAssessment)
  available_batteries : List BatteryCapability
  engagement_attempts : List (String × List EngagementAttempt)

/-- Number of recorded engagement attempts for a missile id (0 when the id
has no ledger entry). -/
def attempt_count (s : CommandState) (missile_id : String) : ℕ :=
  match dict_get s.engagement_attempts missile_id with
  | some attempts => attempts.length
  | none => 0

/-- Dispatch decision from the best intercept solution: an unhandled
`ZeroDivisionError` inside `find_best_intercept_solution` propagates to the
callers' `except` handlers, so no order is published in that case. -/
noncomputable def engage_from_best (threat : ThreatAssessment)
    (batteries : List BatteryCapability) : Option InterceptSolution :=
  match find_best_intercept_solution threat batteries with
  | .error _ => none
  | .ok best => best

/-- Embedding of `CommandLogic.consider_engagement` (`command_logic.py`, lines 326-345),
returning the intercept solution that `order_engagement` publishes, or
`none` when no order is issued: unknown threats are ignored; a missile whose
attempt ledger already holds `max_retries` attempts is never engaged again;
otherwise the best intercept solution (if any) is dispatched. -/
noncomputable def consider_engagement (s : CommandState) (missile_id : String) :
    Option InterceptSolution :=
  match dict_get s.active_threats missile_id with
  | none => none
  | some threat =>
    match dict_get s.engagement_attempts missile_id with
    | some attempts =>
      if max_retries ≤ attempts.length then none
      else engage_from_best threat s.available_batteries
    | none => engage_from_best threat s.available_batteries

/-- The ledger update of `CommandLogic.order_engagement` (`command_logic.py`,
lines 457-468): create the entry on first use, then append one attempt. -/
def ledger_append {α : Type} :
    List (String × List α) → String → α → List (String × List α)
  | [], key, a => [(key, [a])]
  | (k, v) :: rest, key, a =>
    if key = k then (k, v ++ [a]) :: rest
    else (k, v) :: ledger_append rest key a

/-- The state effect of `CommandLogic.order_engagement`: record one engagement
attempt for the target. -/
noncomputable def record_attempt (s : CommandState) (missile_id : String)
    (solution : InterceptSolution) : CommandState :=
  { s with engagement_attempts :=
      (ledger_append s.engagement_attempts missile_id
        ⟨solution.battery_callsign, solution.probability_of_success⟩) }

/-- Embedding of `CommandLogic.cleanup_old_threats` (`command_logic.py`,
lines 523-536), run by `run_command_center` on every one-second pass: each
threat satisfying `current_time - threat.time_to_impact > 300` is removed
from `active_threats` together with its `engagement_attempts` ledger entry.
`current_time` is the epoch value of `time.time()` (around 1.7e9 s) while
`time_to_impact` is a duration of at most a few minutes, so this guard is
true for every live threat on every pass. -/
noncomputable def cleanup_old_threats (current_time : ℝ) (s : CommandState) :
    CommandState :=
  let threats_to_remove :=
    (s.active_threats.filter
      (fun p => current_time - p.2.time_to_impact > 300)).map Prod.fst
  { s with
    active_threats := s.active_threats.filter
      (fun p => ¬ current_time - p.2.time_to_impact > 300),
    engagement_attempts := s.engagement_attempts.filter
      (fun p => p.1 ∉ threats_to_remove) }

end CommandLogic

/-- Concrete threat used to instantiate C1: an attack missile at 100 m
altitude, 30 s from impact. -/
noncomputable def c1_threat : CommandLogic.ThreatAssessment :=
  { missile_id := "m1", current_position := ⟨0, 0, 100⟩,
    time_to_impact := 30, threat_level := "high" }

/-- Concrete battery used to instantiate C1: an active battery sited at
30 km altitude whose platform ceiling is 10 km. -/
noncomputable def c1_battery : CommandLogic.BatteryCapability :=
  { callsign := "B1", position := ⟨0, 0, 30000⟩, max_range := 100000,
    max_altitude := 10000, accuracy := 0.8, reload_time := 30,
    ammo_count := 1, status := "active", time_to_ready := 0 }

/-- Command-center state holding the C1 threat and battery and an empty
attempt ledger. -/
noncomputable def c1_state : CommandLogic.CommandState :=
  { active_threats := [("m1", c1_threat)],
    available_batteries := [c1_battery],
    engagement_attempts := [] }

/-- The intercept solution the C1 state produces: midpoint intercept at
15050 m — above the battery's 10 km ceiling. -/
noncomputable def c1_solution : CommandLogic.InterceptSolution :=
  { battery_callsign := "B1", intercept_point := ⟨0, 0, 15050⟩,
    intercept_time := 15, intercept_altitude := 15050,
    probability_of_success := 0.5608, time_to_launch := 0 }

/-- Concrete threat used to instantiate C2: an attack missile at 300 m
altitude. -/
noncomputable def c2_threat : CommandLogic.ThreatAssessment :=
  { missile_id := "m2", current_position := ⟨0, 0, 300⟩,
    time_to_impact := 30, threat_level := "critical" }

/-- Concrete battery used to instantiate C2: active, ammo 4, accuracy 40 %,
range 400 with the threat at distance 300, so
`probability = 0.4 · (1 − 300/400) = 0.1`. -/
noncomputable def c2_battery : CommandLogic.BatteryCapability :=
  { callsign := "B2", position := ⟨0, 0, 0⟩, max_range := 400,
    max_altitude := 10000, accuracy := 0.4, reload_time := 30,
    ammo_count := 4, status := "active", time_to_ready := 0 }

/-- Command-center state holding the C2 threat and battery and an empty
attempt ledger. -/
noncomputable def c2_state : CommandLogic.CommandState :=
  { active_threats := [("m2", c2_threat)],
    available_batteries := [c2_battery],
    engagement_attempts := [] }

/-- The intercept solution the C2 state produces, with success probability
0.1 — well below the claimed 0.3 floor. -/
noncomputable def c2_solution : CommandLogic.InterceptSolution :=
  { battery_callsign := "B2", intercept_point := ⟨0, 0, 150⟩,
    intercept_time := 15, intercept_altitude := 150,
    probability_of_success := 0.1, time_to_launch := 0 }

/-- Concrete threat used to instantiate C3. -/
noncomputable def c3_threat : CommandLogic.ThreatAssessment :=
  { missile_id := "m3", current_position := ⟨0, 0, 300⟩,
    time_to_impact := 30, threat_level := "critical" }

/-- Concrete battery used to instantiate C3. -/
noncomputable def c3_battery : CommandLogic.BatteryCapability :=
  { callsign := "B3", position := ⟨0, 0, 0⟩, max_range := 400,
    max_altitude := 10000, accuracy := 0.4, reload_time := 30,
    ammo_count := 4, status := "active", time_to_ready := 0 }

/-- Command-center state whose ledger already holds three attempts for
missile `m3`. -/
noncomputable def c3_capped_state : CommandLogic.CommandState :=
  { active_threats := [("m3", c3_threat)],
    available_batteries := [c3_battery],
    engagement_attempts := [("m3", [⟨"B3", 0.1⟩, ⟨"B3", 0.1⟩, ⟨"B3", 0.1⟩])] }

/-- Command-center state after one housekeeping pass has erased the threat
and its ledger and the next `missile.position` update has recreated the
threat: `update_threat_assessment` writes only `active_threats`, so the
attempt ledger is empty again. -/
noncomputable def c3_recreated_state : CommandLogic.CommandState :=
  { active_threats := [("m3", c3_threat)],
    available_batteries := [c3_battery],
    engagement_attempts := [] }

/-- The intercept solution the recreated C3 state produces: the fourth order
published for missile `m3`. -/
noncomputable def c3_solution : CommandLogic.InterceptSolution :=
  { battery_callsign := "B3", intercept_point := ⟨0, 0, 150⟩,
    intercept_time := 15, intercept_altitude := 150,
    probability_of_success := 0.1, time_to_launch := 0 }

/-! ### Engine event pipeline — `simulation_service/simulation_engine.py`

The per-missile event contract (claim C4) concerns which bus events the
engine can still publish for a missile id after its terminal event.  The
relevant state is the live map `self.missiles`; the relevant operations are
`handle_missile_impact` (lines 512-572), `handle_intercept` (lines 574-612),
the intercept step of `check_intercepts` (lines 483-510, which runs
`handle_intercept` for the target and then `handle_missile_impact` for the
defense missile), `create_missile` (insertion of a fresh uuid key) and
`broadcast_missile_positions` (lines 645-694). -/

namespace SimulationEngine

/-- The fields of the `MissileState` dataclass (`simulation_engine.py`,
lines 57-75) that the event pipeline reads. -/
structure MissileState where
  callsign : String
  missile_type : String
  status : String
  fuel_remaining : ℝ
  blast_radius : ℝ
  target_missile_id : Option String

/-- A bus event published by the engine, keyed by the missile id it
concerns: `missile.position`, `missile.impact` or `missile.intercepted`
(the `missile_id` / `target_missile_id` payload field respectively). -/
inductive EngineEvent
  | position (missile_id : String)
  | impact (missile_id : String)
  | intercepted (target_missile_id : String)
deriving DecidableEq

/-- The engine's live map `self.missiles` (`missile_id → MissileState`), in
insertion order. -/
structure EngineState where
  missiles : List (String × MissileState)

/-- The ids present in the live map. -/
def missile_ids (s : EngineState) : List String :=
  s.missiles.map Prod.fst

/-- Python `del self.missiles[missile_id]`. -/
def remove_missile (s : EngineState) (missile_id : String) : EngineState :=
  { missiles := s.missiles.filter (fun p => p.1 ≠ missile_id) }

/-- Embedding of `SimulationEngine.handle_missile_impact` (`simulation_engine.py`, lines
512-572), restricted to the live map and the bus: a missing id returns
immediately; otherwise the missile is deleted from the live map and the
`missile.impact` event is published afterwards. -/
def handle_missile_impact (s : EngineState) (missile_id : String) :
    EngineState × List EngineEvent :=
  if missile_id ∈ missile_ids s
  then (remove_missile s missile_id, [EngineEvent.impact missile_id])
  else (s, [])

/-- Embedding of `SimulationEngine.handle_intercept` (`simulation_engine.py`, lines
574-612): a missing target returns immediately; otherwise the target is
deleted from the live map and the `missile.intercepted` event is published
afterwards. -/
def handle_intercept (s : EngineState)
    (defense_missile_id target_missile_id : String) :
    EngineState × List EngineEvent :=
  if target_missile_id ∈ missile_ids s
  then (remove_missile s target_missile_id,
    [EngineEvent.intercepted target_missile_id])
  else (s, [])

/-- The body of one successful proximity check in
`SimulationEngine.check_intercepts` (`simulation_engine.py`, lines 483-510):
`handle_intercept` for the target followed by `handle_missile_impact` for
the defense missile. -/
def intercept_pair (s : EngineState)
    (defense_missile_id target_missile_id : String) :
    EngineState × List EngineEvent :=
  let r1 := handle_intercept s defense_missile_id target_missile_id
  let r2 := handle_missile_impact r1.1 defense_missile_id
  (r2.1, r1.2 ++ r2.2)

/-- Embedding of `SimulationEngine.broadcast_missile_positions` (`simulation_engine.py`,
lines 645-694): one `missile.position` event per entry of the live map whose
status is `active`. -/
def broadcast_missile_positions (s : EngineState) : List EngineEvent :=
  (s.missiles.filter (fun p => p.2.status = "active")).map
    (fun p => EngineEvent.position p.1)

/-- The live-map effect of `SimulationEngine.create_missile`
(`simulation_engine.py`, lines 313-404): insert the new missile under its
freshly generated uuid key. -/
def create_missile (s : EngineState) (missile_id : String)
    (missile : MissileState) : EngineState :=
  { missiles := s.missiles ++ [(missile_id, missile)] }

/-- The engine operations that touch the live map or the bus, in the order
the simulation loop can run them. -/
inductive EngineOp
  | launch (missile_id : String) (missile : MissileState)
  | impact (missile_id : String)
  | intercept (defense_missile_id target_missile_id : String)
  | physics (missile_id : String) (update : MissileState → MissileState)
  | broadcast

/-- Apply one engine operation, returning the new state and the events
published during it. -/
def apply_op (s : EngineState) : EngineOp → EngineState × List EngineEvent
  | .launch missile_id missile => (create_missile s missile_id missile, [])
  | .impact missile_id => handle_missile_impact s missile_id
  | .intercept defense_missile_id target_missile_id =>
      intercept_pair s defense_missile_id target_missile_id
  | .physics missile_id update =>
      ({ missiles := s.missiles.map
          (fun p => if p.1 = missile_id then (p.1, update p.2) else p) }, [])
  | .broadcast => (s, broadcast_missile_positions s)

/-- The concatenated event log of a sequence of engine operations. -/
def run_engine (s : EngineState) : List EngineOp → List EngineEvent
  | [] => []
  | op :: ops => (apply_op s op).2 ++ run_engine (apply_op s op).1 ops

/-- Whether an event is the terminal event (`missile.impact` or
`missile.intercepted`) for the given missile id. -/
def is_terminal_for (missile_id : String) : EngineEvent → Prop
  | .position _ => False
  | .impact mid => mid = missile_id
  | .intercepted mid => mid = missile_id

/-- No `missile.position` event for the id occurs anywhere after a terminal
event for the id. -/
def no_position_after_terminal (missile_id : String) : List EngineEvent → Prop
  | [] => True
  | e :: rest =>
    (is_terminal_for missile_id e → EngineEvent.position missile_id ∉ rest)
    ∧ no_position_after_terminal missile_id rest

/-- Launches in the operation sequence never reuse the given id — uuid4
freshness. -/
def launches_avoid (missile_id : String) (ops : List EngineOp) : Prop :=
  ∀ mid m, EngineOp.launch mid m ∈ ops → mid ≠ missile_id

end SimulationEngine

/-- Concrete missile used to instantiate C4. -/
noncomputable def c4_missile : SimulationEngine.MissileState :=
  { callsign := "ATK_A", missile_type := "attack", status := "active",
    fuel_remaining := 100, blast_radius := 200, target_missile_id := none }

/-- Concrete engine state holding one live missile `A`. -/
noncomputable def c4_state : SimulationEngine.EngineState :=
  { missiles := [("A", c4_missile)] }

/-- Concrete operation sequence: terminate `A`, launch an unrelated `B`,
then broadcast positions. -/
noncomputable def c4_ops : List SimulationEngine.EngineOp :=
  [.impact "A", .launch "B" c4_missile, .broadcast]

end MissileDefense

namespace MissileDefense

/-! ### Theorems for the radar claims -/

/-- C9 counterexample: the claim states the derived interval equals
`clamp(1000 · (60 / sweep_rate), 100, 5000)`.  At `sweep_rate = 70` the code
truncates `6000/7 ≈ 857.14` to `857` before clamping, so the returned value
differs from the claimed clamp of the exact quotient. -/
theorem update_interval_is_not_unfloored_clamp :
    ((RadarLogic.calculate_update_interval 70 : ℤ) : ℚ)
      ≠ RadarLogic.spec_update_interval 70 := by
  have hfloor : ⌊(1000 : ℚ) * (60 / 70)⌋ = 857 := by
    rw [Int.floor_eq_iff] <;> norm_num
  norm_num [RadarLogic.calculate_update_interval, RadarLogic.spec_update_interval,
    hfloor, min_def, max_def]

/-- C9 (amended): for a radar with `sweep_rate > 0`, the derived update
interval in milliseconds equals
`clamp(⌊1000 · (60 / sweep_rate)⌋, 100, 5000)` — the quotient is truncated to
an integer before clamping — and the result always lies between 100 and 5000
inclusive. -/
theorem update_interval_clamped (sweep_rate : ℚ) (h : 0 < sweep_rate) :
    RadarLogic.calculate_update_interval sweep_rate
        = max 100 (min 5000 ⌊(1000 : ℚ) * (60 / sweep_rate)⌋)
      ∧ 100 ≤ RadarLogic.calculate_update_interval sweep_rate
      ∧ RadarLogic.calculate_update_interval sweep_rate ≤ 5000 := by
  have hneg : ¬ sweep_rate ≤ 0 := not_le.mpr h
  refine ⟨?_, ?_, ?_⟩
  · simp only [RadarLogic.calculate_update_interval, if_neg hneg]
  · simp only [RadarLogic.calculate_update_interval, if_neg hneg]
    exact le_max_left _ _
  · simp only [RadarLogic.calculate_update_interval, if_neg hneg]
    exact max_le (by norm_num) (min_le_left _ _)

/-- C9 witness: the amended theorem applied at the concrete sweep rate 70. -/
theorem update_interval_clamped_witness :
    (0 : ℚ) < 70
      ∧ RadarLogic.calculate_update_interval 70
          = max 100 (min 5000 ⌊(1000 : ℚ) * (60 / 70)⌋) :=
  ⟨by norm_num, (update_interval_clamped 70 (by norm_num)).1⟩

/-- C8 counterexample: the claim states that the altitude factor is
`clamp(z/10000, 0, 1)`.  The code uses `min(1.0, z/10000.0)` with no lower
clamp, so for a target below the surface (`z = -10000`) the factor is `-1`
rather than `0`: with `detection_range = 100000`, `distance = 50000`,
`signal_strength_db = -50` and noise draw `1/2` the code returns `3/10`
while the claimed formula yields `1/2`. -/
theorem detection_probability_not_spec_formula :
    RadarLogic.calculate_detection_probability 100000 (-50) 50000 (-10000) (1/2)
      ≠ RadarLogic.spec_detection_probability 100000 (-50) 50000 (-10000) (1/2) := by
  norm_num [RadarLogic.calculate_detection_probability,
    RadarLogic.spec_detection_probability, min_def, max_def]

/-- C8 (amended): for every radar check of an eligible missile the computed
detection probability equals
`clamp(0.8 · (1 − d/detection_range_m) · min(z/10000, 1) · (1 + signal_strength_db/100) + noise, 0, 1)`
— the altitude factor is clamped above at 1 only and may be negative below
the surface — and the returned value always lies in `[0, 1]`. -/
theorem detection_probability_formula
    (detection_range_m max_altitude_m signal_strength_db distance z noise : ℚ)
    (helig_range : distance ≤ detection_range_m)
    (helig_alt : z ≤ max_altitude_m) :
    RadarLogic.calculate_detection_probability
        detection_range_m signal_strength_db distance z noise
        = max 0 (min 1
            (0.8 * (1 - distance / detection_range_m) * min 1 (z / 10000)
               * (1 + signal_strength_db / 100) + noise))
      ∧ 0 ≤ RadarLogic.calculate_detection_probability
          detection_range_m signal_strength_db distance z noise
      ∧ RadarLogic.calculate_detection_probability
          detection_range_m signal_strength_db distance z noise ≤ 1 := by
  refine ⟨rfl, le_max_left _ _, ?_⟩
  exact max_le (by norm_num) (min_le_left _ _)

/-- C8 witness: the amended theorem applied at a concrete eligible check
(`distance 50000 ≤ detection range 100000`, `z = 5000 ≤ max altitude 20000`). -/
theorem detection_probability_formula_witness :
    (50000 : ℚ) ≤ 100000 ∧ (5000 : ℚ) ≤ 20000
      ∧ 0 ≤ RadarLogic.calculate_detection_probability 100000 (-50) 50000 5000 0
      ∧ RadarLogic.calculate_detection_probability 100000 (-50) 50000 5000 0 ≤ 1 :=
  ⟨by norm_num, by norm_num,
    (detection_probability_formula 100000 20000 (-50) 50000 5000 0
      (by norm_num) (by norm_num)).2.1,
    (detection_probability_formula 100000 20000 (-50) 50000 5000 0
      (by norm_num) (by norm_num)).2.2⟩

/-! ### Theorems for the simulation-engine claims C7 and C10 -/

/-- C7: for every launch the Engine processes, the created munition's initial
velocity is the unit vector from launcher to target scaled by
`min(platform.max_speed_mps, 1000)` when the launch altitude is ≥ 0 (and the
direction to the target is non-degenerate, which the claim presupposes), and
is the fixed vertical vector `(0, 0, 50)` when the launch altitude is < 0. -/
theorem initial_velocity_cases (max_speed_mps : ℝ)
    (launch_pos target_pos : SimulationEngine.Vector3D) :
    (launch_pos.z < 0 →
      SimulationEngine.initial_velocity max_speed_mps launch_pos target_pos
        = ⟨0, 0, 50⟩)
    ∧ (0 ≤ launch_pos.z → 0 < (target_pos.sub launch_pos).magnitude →
      SimulationEngine.initial_velocity max_speed_mps launch_pos target_pos
        = (target_pos.sub launch_pos).smul
            (min max_speed_mps 1000 / (target_pos.sub launch_pos).magnitude)) := by
  constructor
  · intro hz
    simp only [SimulationEngine.initial_velocity, if_pos hz]
  · intro hz hmag
    simp only [SimulationEngine.initial_velocity, if_neg (not_lt.mpr hz), if_pos hmag,
      SimulationEngine.Vector3D.normalize, if_neg (ne_of_gt hmag),
      SimulationEngine.Vector3D.smul]
    ext <;> ring

/-- C7 witness: the theorem applied to a concrete underwater launch and to a
concrete surface launch aimed at a distinct target. -/
theorem initial_velocity_cases_witness :
    ((-200 : ℝ) < 0
      ∧ SimulationEngine.initial_velocity 2000 ⟨0, 0, -200⟩ ⟨3, 4, 0⟩ = ⟨0, 0, 50⟩)
    ∧ ((0 : ℝ) ≤ 0
      ∧ 0 < ((⟨3, 4, 0⟩ : SimulationEngine.Vector3D).sub ⟨0, 0, 0⟩).magnitude
      ∧ SimulationEngine.initial_velocity 2000 ⟨0, 0, 0⟩ ⟨3, 4, 0⟩
          = ((⟨3, 4, 0⟩ : SimulationEngine.Vector3D).sub ⟨0, 0, 0⟩).smul
              (min (2000 : ℝ) 1000
                / ((⟨3, 4, 0⟩ : SimulationEngine.Vector3D).sub ⟨0, 0, 0⟩).magnitude)) := by
  have hmag : 0 < ((⟨3, 4, 0⟩ : SimulationEngine.Vector3D).sub ⟨0, 0, 0⟩).magnitude := by
    rw [SimulationEngine.Vector3D.magnitude]
    apply Real.sqrt_pos.mpr
    norm_num [SimulationEngine.Vector3D.sub]
  exact ⟨⟨by norm_num, (initial_velocity_cases 2000 ⟨0, 0, -200⟩ ⟨3, 4, 0⟩).1 (by norm_num)⟩,
    by norm_num, hmag,
    (initial_velocity_cases 2000 ⟨0, 0, 0⟩ ⟨3, 4, 0⟩).2 (by norm_num) hmag⟩

/-- C10: the fuel update of every physics tick clamps consumption at zero
(`max(0, fuel_remaining - consumed)`), so a live munition's fuel level stays
non-negative: `fuel_remaining ≥ 0` is preserved by `update_missile_physics`. -/
theorem update_fuel_nonneg (fuel_remaining : ℝ) (status : String)
    (z elapsed fuel_consumption_rate dt : ℝ)
    (h : 0 ≤ fuel_remaining) :
    0 ≤ SimulationEngine.update_fuel fuel_remaining status z elapsed
          fuel_consumption_rate dt := by
  rw [SimulationEngine.update_fuel]
  split
  · exact le_max_left _ _
  · exact h

/-- C10 witness: the preservation theorem applied to a concrete active
missile at 500 m with 5 kg of fuel, burn rate 50 kg/s and a 100 ms tick. -/
theorem update_fuel_nonneg_witness :
    (0 : ℝ) ≤ 5
      ∧ 0 ≤ SimulationEngine.update_fuel 5 "active" 500 1 50 0.1 :=
  ⟨by norm_num, update_fuel_nonneg 5 "active" 500 1 50 0.1 (by norm_num)⟩

/-! ### Theorems for the battery-controller claims C5 and C6 -/

/-- C5: when a battery controller with status `ready` and no engagement in
progress processes a queued order whose intercept point lies farther than
`max_range_m` or whose intercept altitude exceeds `max_altitude_m`, no
defensive launch occurs (no `simulation.launch` message, and the state —
including `ammo_count` — is unchanged except that the order is popped from
the pending queue), and the battery's status remains `ready`. -/
theorem envelope_failure_consumes_order (current_time : ℝ)
    (s : BatterySim.BatterySimState) (order : BatterySim.EngagementOrder)
    (rest : List BatterySim.EngagementOrder)
    (hqueue : s.pending_engagements = order :: rest)
    (hcur : s.current_engagement = none)
    (hready : s.status = "ready")
    (henv : BatterySim.calculate_distance s.battery_pos order.intercept_point
              > s.battery_capability.max_range_m
          ∨ order.intercept_altitude > s.battery_capability.max_altitude_m) :
    BatterySim.process_engagements current_time s
        = ({ s with pending_engagements := rest }, [])
      ∧ (BatterySim.process_engagements current_time s).1.status = "ready" := by
  have hru : BatterySim.process_engagements current_time s
      = ({ s with pending_engagements := rest }, []) := by
    rw [BatterySim.process_engagements, hqueue, hcur]
    have hprep : BatterySim.prepare_for_engagement current_time s order = (false, s) := by
      rw [BatterySim.prepare_for_engagement]
      by_cases hce : BatterySim.can_engage current_time s
      · rw [if_neg (by simpa using hce)]
        rcases henv with hdist | halt
        · rw [if_pos hdist]
        · by_cases hdist : BatterySim.calculate_distance s.battery_pos
              order.intercept_point > s.battery_capability.max_range_m
          · rw [if_pos hdist]
          · rw [if_neg hdist, if_pos halt]
      · rw [if_pos (by simpa using hce)]
    simp [hprep, hcur]
  exact ⟨hru, by rw [hru]; exact hready⟩

/-- C5 witness: the theorem applied to a concrete ready battery whose head
order demands an intercept at 200 km altitude against a 150 km ceiling. -/
theorem envelope_failure_consumes_order_witness :
    (BatterySim.process_engagements 100 c5_state = ({ c5_state with pending_engagements := [] }, [])
      ∧ (BatterySim.process_engagements 100 c5_state).1.status = "ready")
      ∧ c5_order.intercept_altitude > c5_state.battery_capability.max_altitude_m :=
  ⟨envelope_failure_consumes_order 100 c5_state c5_order [] rfl rfl rfl
      (Or.inr (by norm_num [c5_order, c5_state])),
    by norm_num [c5_order, c5_state]⟩

/-- C6: an engagement order arriving at the battery controller never
changes the pending queue — `data['type']` on the decoded `str` raises
`TypeError` for every message (`json.loads` is missing) and the `except`
block swallows it — so in particular an order for a target already queued is
discarded, any delivery sequence leaves the queue as it started, and the
pending queue never comes to hold two orders with the same
`target_missile_id`. -/
theorem engagement_queue_no_duplicate_targets :
    (∀ (s : BatterySim.BatterySimState) (raw_message : String),
        (BatterySim.handle_engagement_order s raw_message).pending_engagements
          = s.pending_engagements)
    ∧ ∀ (raw_messages : List String) (s : BatterySim.BatterySimState),
        (s.pending_engagements.map (fun o => o.target_missile_id)).Nodup →
        ((raw_messages.foldl BatterySim.handle_engagement_order
            s).pending_engagements.map
          (fun o => o.target_missile_id)).Nodup := by
  have hfold : ∀ (raw_messages : List String) (s : BatterySim.BatterySimState),
      raw_messages.foldl BatterySim.handle_engagement_order s = s := by
    intro raw_messages
    induction raw_messages with
    | nil => intro s; rfl
    | cons r rest ih => intro s; exact ih s
  refine ⟨fun _ _ => rfl, fun raws s h => ?_⟩
  rw [hfold]
  exact h

/-- C6 witness: the theorem applied to a queue already holding an order for
`m1` while a duplicate order message for `m1` arrives. -/
theorem engagement_queue_no_duplicate_targets_witness :
    (c6_state.pending_engagements.map (fun o => o.target_missile_id)).Nodup
    ∧ (([c6_raw_message].foldl BatterySim.handle_engagement_order
          c6_state).pending_engagements.map
        (fun o => o.target_missile_id)).Nodup := by
  have hnodup : (c6_state.pending_engagements.map
      (fun o => o.target_missile_id)).Nodup := by
    simp [c6_state]
  exact ⟨hnodup,
    engagement_queue_no_duplicate_targets.2 [c6_raw_message] c6_state hnodup⟩

/-! ### Theorems for the command-center claims C1, C2 and C3 -/

/-- The distance from a battery to the midpoint between battery and threat
is half the battery-to-threat distance (same Euclidean expression as the
source). -/
lemma threat_distance_to_midpoint (b t : CommandLogic.LatLonAlt) :
    CommandLogic.threat_distance b
        ⟨(b.lat + t.lat) / 2, (b.lon + t.lon) / 2, (b.alt + t.alt) / 2⟩
      = CommandLogic.threat_distance b t / 2 := by
  unfold CommandLogic.threat_distance
  have h4 : Real.sqrt 4 = 2 := by
    rw [show (4 : ℝ) = 2 ^ 2 by norm_num, Real.sqrt_sq (by norm_num : (0:ℝ) ≤ 2)]
  rw [show (b.lat - (b.lat + t.lat) / 2) ^ 2 + (b.lon - (b.lon + t.lon) / 2) ^ 2
        + (b.alt - (b.alt + t.alt) / 2) ^ 2
      = ((b.lat - t.lat) ^ 2 + (b.lon - t.lon) ^ 2 + (b.alt - t.alt) ^ 2) / 4 by ring,
    Real.sqrt_div (by positivity) 4, h4]

/-- Every solution returned by `calculate_intercept_solution` carries the
candidate battery's callsign, an intercept point within half the battery's
range, and — provided the battery itself sits below its own ceiling — an
intercept altitude within the ceiling. -/
lemma calculate_intercept_solution_bounds (threat : CommandLogic.ThreatAssessment)
    (battery : CommandLogic.BatteryCapability)
    (solution : CommandLogic.InterceptSolution)
    (h : CommandLogic.calculate_intercept_solution threat battery = some solution) :
    solution.battery_callsign = battery.callsign
    ∧ CommandLogic.threat_distance battery.position solution.intercept_point
        ≤ battery.max_range
    ∧ (battery.position.alt ≤ battery.max_altitude →
        solution.intercept_altitude ≤ battery.max_altitude) := by
  have hnn : 0 ≤ CommandLogic.threat_distance battery.position threat.current_position :=
    Real.sqrt_nonneg _
  simp only [CommandLogic.calculate_intercept_solution] at h
  by_cases h1 : threat.current_position.alt ≤ 0
  · rw [if_pos h1] at h; exact Option.noConfusion h
  rw [if_neg h1] at h
  by_cases h2 : CommandLogic.threat_distance battery.position threat.current_position
      > battery.max_range
  · rw [if_pos h2] at h; exact Option.noConfusion h
  rw [if_neg h2] at h
  by_cases h3 : threat.current_position.alt > battery.max_altitude
  · rw [if_pos h3] at h; exact Option.noConfusion h
  rw [if_neg h3] at h
  by_cases h5 : battery.max_range = 0
  · rw [if_pos h5] at h; exact Option.noConfusion h
  rw [if_neg h5] at h
  injection h with h
  subst h
  refine ⟨rfl, ?_, ?_⟩
  · show CommandLogic.threat_distance battery.position
        ⟨(battery.position.lat + threat.current_position.lat) / 2,
         (battery.position.lon + threat.current_position.lon) / 2,
         (battery.position.alt + threat.current_position.alt) / 2⟩
      ≤ battery.max_range
    rw [threat_distance_to_midpoint]
    have hle := not_lt.mp h2
    linarith
  · intro hb
    show (battery.position.alt + threat.current_position.alt) / 2 ≤ battery.max_altitude
    have hle := not_lt.mp h3
    linarith

/-- The solution held by `find_best_intercept_solution`'s accumulator comes
either from the initial accumulator or from some battery of the candidate
list. -/
lemma find_best_aux_mem (threat : CommandLogic.ThreatAssessment)
    (l : List CommandLogic.BatteryCapability) :
    ∀ (acc res : Option CommandLogic.InterceptSolution × ℝ),
      CommandLogic.find_best_aux threat l acc = .ok res →
      res.1 = acc.1
      ∨ ∃ b ∈ l, CommandLogic.calculate_intercept_solution threat b = res.1 := by
  induction l with
  | nil =>
    intro acc res h
    simp only [CommandLogic.find_best_aux, Except.ok.injEq] at h
    left; rw [h]
  | cons battery rest ih =>
    intro acc res h
    simp only [CommandLogic.find_best_aux] at h
    by_cases hskip : battery.status ≠ "active" ∨ battery.ammo_count ≤ 0
    · rw [if_pos hskip] at h
      rcases ih acc res h with h1 | ⟨b, hb, hcb⟩
      · exact Or.inl h1
      · exact Or.inr ⟨b, List.mem_cons_of_mem _ hb, hcb⟩
    · rw [if_neg hskip] at h
      cases hcalc : CommandLogic.calculate_intercept_solution threat battery with
      | none =>
        simp only [hcalc] at h
        rcases ih acc res h with h1 | ⟨b, hb, hcb⟩
        · exact Or.inl h1
        · exact Or.inr ⟨b, List.mem_cons_of_mem _ hb, hcb⟩
      | some solution =>
        simp only [hcalc] at h
        by_cases hz : solution.time_to_launch + 1 = 0
        · rw [if_pos hz] at h; exact Except.noConfusion h
        rw [if_neg hz] at h
        by_cases hscore : solution.probability_of_success
            / (solution.time_to_launch + 1) > acc.2
        · rw [if_pos hscore] at h
          rcases ih _ res h with h1 | ⟨b, hb, hcb⟩
          · exact Or.inr ⟨battery, List.mem_cons_self _ _, by rw [hcalc, h1]⟩
          · exact Or.inr ⟨b, List.mem_cons_of_mem _ hb, hcb⟩
        · rw [if_neg hscore] at h
          rcases ih acc res h with h1 | ⟨b, hb, hcb⟩
          · exact Or.inl h1
          · exact Or.inr ⟨b, List.mem_cons_of_mem _ hb, hcb⟩

/-- The fold of `find_best_intercept_solution` keeps the accumulator score
non-negative, and a held solution always realizes a strictly positive
score. -/
lemma find_best_aux_score_pos (threat : CommandLogic.ThreatAssessment)
    (l : List CommandLogic.BatteryCapability) :
    ∀ (acc res : Option CommandLogic.InterceptSolution × ℝ),
      0 ≤ acc.2 →
      (∀ sol, acc.1 = some sol →
        acc.2 = sol.probability_of_success / (sol.time_to_launch + 1) ∧ 0 < acc.2) →
      CommandLogic.find_best_aux threat l acc = .ok res →
      0 ≤ res.2
      ∧ ∀ sol, res.1 = some sol →
          res.2 = sol.probability_of_success / (sol.time_to_launch + 1) ∧ 0 < res.2 := by
  induction l with
  | nil =>
    intro acc res hnn hgood h
    simp only [CommandLogic.find_best_aux, Except.ok.injEq] at h
    rw [← h]; exact ⟨hnn, hgood⟩
  | cons battery rest ih =>
    intro acc res hnn hgood h
    simp only [CommandLogic.find_best_aux] at h
    by_cases hskip : battery.status ≠ "active" ∨ battery.ammo_count ≤ 0
    · rw [if_pos hskip] at h; exact ih acc res hnn hgood h
    · rw [if_neg hskip] at h
      cases hcalc : CommandLogic.calculate_intercept_solution threat battery with
      | none => simp only [hcalc] at h; exact ih acc res hnn hgood h
      | some solution =>
        simp only [hcalc] at h
        by_cases hz : solution.time_to_launch + 1 = 0
        · rw [if_pos hz] at h; exact Except.noConfusion h
        rw [if_neg hz] at h
        by_cases hscore : solution.probability_of_success
            / (solution.time_to_launch + 1) > acc.2
        · rw [if_pos hscore] at h
          refine ih _ res (le_of_lt (lt_of_le_of_lt hnn hscore)) ?_ h
          intro sol hsol
          have hsol' : solution = sol := by
            simpa using hsol
          subst hsol'
          exact ⟨rfl, lt_of_le_of_lt hnn hscore⟩
        · rw [if_neg hscore] at h; exact ih acc res hnn hgood h

/-- A published engagement order originates in an existing threat and a
candidate battery whose `calculate_intercept_solution` produced exactly the
dispatched solution. -/
lemma consider_engagement_some (s : CommandLogic.CommandState) (missile_id : String)
    (solution : CommandLogic.InterceptSolution)
    (h : CommandLogic.consider_engagement s missile_id = some solution) :
    ∃ threat, CommandLogic.dict_get s.active_threats missile_id = some threat
      ∧ ∃ b ∈ s.available_batteries,
          CommandLogic.calculate_intercept_solution threat b = some solution := by
  unfold CommandLogic.consider_engagement at h
  cases ht : CommandLogic.dict_get s.active_threats missile_id with
  | none => simp only [ht] at h; exact Option.noConfusion h
  | some threat =>
    simp only [ht] at h
    have hbest : CommandLogic.engage_from_best threat s.available_batteries
        = some solution := by
      cases ha : CommandLogic.dict_get s.engagement_attempts missile_id with
      | none => simp only [ha] at h; exact h
      | some attempts =>
        simp only [ha] at h
        by_cases hc : CommandLogic.max_retries ≤ attempts.length
        · rw [if_pos hc] at h; exact Option.noConfusion h
        · rw [if_neg hc] at h; exact h
    refine ⟨threat, rfl, ?_⟩
    unfold CommandLogic.engage_from_best at hbest
    cases hf : CommandLogic.find_best_intercept_solution threat s.available_batteries with
    | error e => simp only [hf] at hbest; exact Option.noConfusion hbest
    | ok best =>
      simp only [hf] at hbest
      unfold CommandLogic.find_best_intercept_solution at hf
      cases haux : CommandLogic.find_best_aux threat s.available_batteries (none, 0) with
      | error e => rw [haux] at hf; exact Except.noConfusion hf
      | ok acc =>
        rw [haux] at hf
        have hacc1 : acc.1 = best := by
          simpa [Except.map] using hf
        rcases find_best_aux_mem threat s.available_batteries (none, 0) acc haux with
          h1 | ⟨b, hb, hcb⟩
        · rw [h1] at hacc1
          rw [← hacc1] at hbest
          exact Option.noConfusion hbest
        · exact ⟨b, hb, by rw [hcb, hacc1, hbest]⟩

/-- Every published engagement order realizes a strictly positive score. -/
lemma consider_engagement_score_pos (s : CommandLogic.CommandState)
    (missile_id : String) (solution : CommandLogic.InterceptSolution)
    (h : CommandLogic.consider_engagement s missile_id = some solution) :
    0 < solution.probability_of_success / (solution.time_to_launch + 1) := by
  unfold CommandLogic.consider_engagement at h
  cases ht : CommandLogic.dict_get s.active_threats missile_id with
  | none => simp only [ht] at h; exact Option.noConfusion h
  | some threat =>
    simp only [ht] at h
    have hbest : CommandLogic.engage_from_best threat s.available_batteries
        = some solution := by
      cases ha : CommandLogic.dict_get s.engagement_attempts missile_id with
      | none => simp only [ha] at h; exact h
      | some attempts =>
        simp only [ha] at h
        by_cases hc : CommandLogic.max_retries ≤ attempts.length
        · rw [if_pos hc] at h; exact Option.noConfusion h
        · rw [if_neg hc] at h; exact h
    unfold CommandLogic.engage_from_best at hbest
    cases hf : CommandLogic.find_best_intercept_solution threat s.available_batteries with
    | error e => simp only [hf] at hbest; exact Option.noConfusion hbest
    | ok best =>
      simp only [hf] at hbest
      unfold CommandLogic.find_best_intercept_solution at hf
      cases haux : CommandLogic.find_best_aux threat s.available_batteries (none, 0) with
      | error e => rw [haux] at hf; exact Except.noConfusion hf
      | ok acc =>
        rw [haux] at hf
        have hacc1 : acc.1 = best := by
          simpa [Except.map] using hf
        have hgood := find_best_aux_score_pos threat s.available_batteries (none, 0) acc
          (le_refl 0) (by intro sol hsol; exact Option.noConfusion hsol) haux
        have := (hgood.2 solution (by rw [hacc1, hbest])).1
        have hpos := (hgood.2 solution (by rw [hacc1, hbest])).2
        rw [this] at hpos
        exact hpos

/-- Distance from the C1 battery to the C1 threat: 29900. -/
lemma c1_distance_eval :
    CommandLogic.threat_distance c1_battery.position c1_threat.current_position
      = 29900 := by
  have h : (c1_battery.position.lat - c1_threat.current_position.lat) ^ 2
      + (c1_battery.position.lon - c1_threat.current_position.lon) ^ 2
      + (c1_battery.position.alt - c1_threat.current_position.alt) ^ 2
      = 29900 ^ 2 := by
    norm_num [c1_battery, c1_threat]
  unfold CommandLogic.threat_distance
  rw [h, Real.sqrt_sq (by norm_num : (0:ℝ) ≤ 29900)]

/-- The C1 candidate passes every guard and yields the midpoint solution. -/
lemma c1_calc_eval :
    CommandLogic.calculate_intercept_solution c1_threat c1_battery
      = some c1_solution := by
  simp only [CommandLogic.calculate_intercept_solution, c1_distance_eval]
  norm_num [c1_battery, c1_threat, c1_solution]

/-- The C1 battery wins the selection fold. -/
lemma c1_best_eval :
    CommandLogic.find_best_intercept_solution c1_threat [c1_battery]
      = .ok (some c1_solution) := by
  have hskip : ¬ (c1_battery.status ≠ "active" ∨ c1_battery.ammo_count ≤ 0) := by
    norm_num [c1_battery]
  simp only [CommandLogic.find_best_intercept_solution, CommandLogic.find_best_aux,
    if_neg hskip, c1_calc_eval]
  norm_num [c1_solution, Except.map]

/-- Evaluation: `consider_engagement` publishes the C1 solution. -/
lemma c1_consider_eval :
    CommandLogic.consider_engagement c1_state "m1" = some c1_solution := by
  simp [CommandLogic.consider_engagement, CommandLogic.engage_from_best,
    CommandLogic.dict_get, c1_state, c1_best_eval]

/-- Distance from the C2 battery to the C2 threat: 300. -/
lemma c2_distance_eval :
    CommandLogic.threat_distance c2_battery.position c2_threat.current_position
      = 300 := by
  have h : (c2_battery.position.lat - c2_threat.current_position.lat) ^ 2
      + (c2_battery.position.lon - c2_threat.current_position.lon) ^ 2
      + (c2_battery.position.alt - c2_threat.current_position.alt) ^ 2
      = 300 ^ 2 := by
    norm_num [c2_battery, c2_threat]
  unfold CommandLogic.threat_distance
  rw [h, Real.sqrt_sq (by norm_num : (0:ℝ) ≤ 300)]

/-- The C2 candidate passes every guard and yields a probability of 0.1. -/
lemma c2_calc_eval :
    CommandLogic.calculate_intercept_solution c2_threat c2_battery
      = some c2_solution := by
  simp only [CommandLogic.calculate_intercept_solution, c2_distance_eval]
  norm_num [c2_battery, c2_threat, c2_solution]

/-- The C2 battery wins the selection fold. -/
lemma c2_best_eval :
    CommandLogic.find_best_intercept_solution c2_threat [c2_battery]
      = .ok (some c2_solution) := by
  have hskip : ¬ (c2_battery.status ≠ "active" ∨ c2_battery.ammo_count ≤ 0) := by
    norm_num [c2_battery]
  simp only [CommandLogic.find_best_intercept_solution, CommandLogic.find_best_aux,
    if_neg hskip, c2_calc_eval]
  norm_num [c2_solution, Except.map]

/-- Evaluation: `consider_engagement` publishes the C2 solution. -/
lemma c2_consider_eval :
    CommandLogic.consider_engagement c2_state "m2" = some c2_solution := by
  simp [CommandLogic.consider_engagement, CommandLogic.engage_from_best,
    CommandLogic.dict_get, c2_state, c2_best_eval]

/-- C1 counterexample: from the C1 state, the command center publishes an
engagement order whose intercept altitude (15050 m, the midpoint of the
battery altitude 30 km and the threat altitude 100 m) exceeds the chosen
battery's `max_altitude_m` of 10 km, contradicting the claimed envelope
invariant. -/
theorem engagement_order_breaks_altitude_envelope :
    CommandLogic.consider_engagement c1_state "m1" = some c1_solution
    ∧ c1_solution.battery_callsign = c1_battery.callsign
    ∧ c1_solution.intercept_altitude > c1_battery.max_altitude :=
  ⟨c1_consider_eval, rfl, by norm_num [c1_solution, c1_battery]⟩

/-- C1 (amended): every engagement order the command center issues names a
candidate battery; the distance from that battery to the order's intercept
point is at most `max_range_m` (the code checks the battery-to-threat
distance and the intercept point is the midpoint), and the order's intercept
altitude is at most `max_altitude_m` whenever the battery's own altitude is
(the code checks the threat's altitude, not the midpoint's). -/
theorem engagement_order_envelope (s : CommandLogic.CommandState)
    (missile_id : String) (solution : CommandLogic.InterceptSolution)
    (h : CommandLogic.consider_engagement s missile_id = some solution) :
    ∃ battery ∈ s.available_batteries,
      solution.battery_callsign = battery.callsign
      ∧ CommandLogic.threat_distance battery.position solution.intercept_point
          ≤ battery.max_range
      ∧ (battery.position.alt ≤ battery.max_altitude →
          solution.intercept_altitude ≤ battery.max_altitude) := by
  obtain ⟨threat, _, b, hb, hcb⟩ := consider_engagement_some s missile_id solution h
  obtain ⟨hcs, hdist, halt⟩ := calculate_intercept_solution_bounds threat b solution hcb
  exact ⟨b, hb, hcs, hdist, halt⟩

/-- C1 witness: the amended envelope theorem applied to the concrete C1
engagement. -/
theorem engagement_order_envelope_witness :
    CommandLogic.consider_engagement c1_state "m1" = some c1_solution
    ∧ ∃ battery ∈ c1_state.available_batteries,
        c1_solution.battery_callsign = battery.callsign
        ∧ CommandLogic.threat_distance battery.position c1_solution.intercept_point
            ≤ battery.max_range
        ∧ (battery.position.alt ≤ battery.max_altitude →
            c1_solution.intercept_altitude ≤ battery.max_altitude) :=
  ⟨c1_consider_eval,
    engagement_order_envelope c1_state "m1" c1_solution c1_consider_eval⟩

/-- C2 counterexample: from the C2 state, the command center publishes an
engagement order whose estimated probability of success is 0.1 ≤ 0.3 — the
claimed dispatch floor does not exist in `command_logic.py`. -/
theorem engagement_order_below_probability_floor :
    CommandLogic.consider_engagement c2_state "m2" = some c2_solution
    ∧ c2_solution.probability_of_success ≤ 0.3 :=
  ⟨c2_consider_eval, by norm_num [c2_solution]⟩

/-- C2 (amended): `command_logic.py` applies no probability floor; an order
is dispatched whenever the selection fold holds a solution, which requires
only that its score `probability_of_success / (time_to_launch + 1)` strictly
exceed the initial best score 0.  Every published order therefore has a
strictly positive score — and nothing more. -/
theorem engagement_order_positive_score (s : CommandLogic.CommandState)
    (missile_id : String) (solution : CommandLogic.InterceptSolution)
    (h : CommandLogic.consider_engagement s missile_id = some solution) :
    0 < solution.probability_of_success / (solution.time_to_launch + 1) :=
  consider_engagement_score_pos s missile_id solution h

/-- C2 witness: the positive-score theorem applied to the concrete C2
engagement. -/
theorem engagement_order_positive_score_witness :
    CommandLogic.consider_engagement c2_state "m2" = some c2_solution
    ∧ 0 < c2_solution.probability_of_success / (c2_solution.time_to_launch + 1) :=
  ⟨c2_consider_eval,
    engagement_order_positive_score c2_state "m2" c2_solution c2_consider_eval⟩

/-- Appending an attempt to the ledger updates exactly the target's entry. -/
lemma dict_get_ledger_append {α : Type} (l : List (String × List α))
    (key : String) (a : α) :
    CommandLogic.dict_get (CommandLogic.ledger_append l key a) key
      = some (((CommandLogic.dict_get l key).getD []) ++ [a]) := by
  induction l with
  | nil => simp [CommandLogic.ledger_append, CommandLogic.dict_get]
  | cons p rest ih =>
    obtain ⟨k, v⟩ := p
    by_cases hk : key = k
    · subst hk
      simp [CommandLogic.ledger_append, CommandLogic.dict_get]
    · simp [CommandLogic.ledger_append, CommandLogic.dict_get, hk, ih]

/-- Recording an attempt increments the target's attempt count by one. -/
lemma attempt_count_record (s : CommandLogic.CommandState) (missile_id : String)
    (solution : CommandLogic.InterceptSolution) :
    CommandLogic.attempt_count (CommandLogic.record_attempt s missile_id solution)
        missile_id
      = CommandLogic.attempt_count s missile_id + 1 := by
  unfold CommandLogic.attempt_count CommandLogic.record_attempt
  rw [dict_get_ledger_append]
  cases hd : CommandLogic.dict_get s.engagement_attempts missile_id with
  | none => simp [hd]
  | some attempts => simp [hd]

/-- An order is only published while the target's attempt count is below
`max_retries`. -/
lemma consider_engagement_attempts_lt (s : CommandLogic.CommandState)
    (missile_id : String) (solution : CommandLogic.InterceptSolution)
    (h : CommandLogic.consider_engagement s missile_id = some solution) :
    CommandLogic.attempt_count s missile_id < CommandLogic.max_retries := by
  unfold CommandLogic.consider_engagement at h
  unfold CommandLogic.attempt_count
  cases ht : CommandLogic.dict_get s.active_threats missile_id with
  | none => simp only [ht] at h; exact Option.noConfusion h
  | some threat =>
    simp only [ht] at h
    cases ha : CommandLogic.dict_get s.engagement_attempts missile_id with
    | none =>
      simp only [ha]
      norm_num [CommandLogic.max_retries]
    | some attempts =>
      simp only [ha] at h ⊢
      by_cases hc : CommandLogic.max_retries ≤ attempts.length
      · rw [if_pos hc] at h; exact Option.noConfusion h
      · exact not_le.mp hc

/-- Evaluation: with three recorded attempts, no order is issued for `m3`. -/
lemma c3_capped_consider_eval :
    CommandLogic.consider_engagement c3_capped_state "m3" = none := by
  simp [CommandLogic.consider_engagement, CommandLogic.dict_get, c3_capped_state,
    CommandLogic.max_retries]

/-- Evaluation: the housekeeping pass at epoch time 1.7e9 erases both the
threat and its attempt ledger. -/
lemma c3_cleanup_eval :
    CommandLogic.cleanup_old_threats 1700000000 c3_capped_state
      = { active_threats := [], available_batteries := [c3_battery],
          engagement_attempts := [] } := by
  have hcond : (1700000000 : ℝ) - c3_threat.time_to_impact > 300 := by
    norm_num [c3_threat]
  simp [CommandLogic.cleanup_old_threats, c3_capped_state, List.filter, hcond]

/-- Distance from the C3 battery to the C3 threat: 300. -/
lemma c3_distance_eval :
    CommandLogic.threat_distance c3_battery.position c3_threat.current_position
      = 300 := by
  have h : (c3_battery.position.lat - c3_threat.current_position.lat) ^ 2
      + (c3_battery.position.lon - c3_threat.current_position.lon) ^ 2
      + (c3_battery.position.alt - c3_threat.current_position.alt) ^ 2
      = 300 ^ 2 := by
    norm_num [c3_battery, c3_threat]
  unfold CommandLogic.threat_distance
  rw [h, Real.sqrt_sq (by norm_num : (0:ℝ) ≤ 300)]

/-- The C3 candidate passes every guard after the ledger reset. -/
lemma c3_calc_eval :
    CommandLogic.calculate_intercept_solution c3_threat c3_battery
      = some c3_solution := by
  simp only [CommandLogic.calculate_intercept_solution, c3_distance_eval]
  norm_num [c3_battery, c3_threat, c3_solution]

/-- The C3 battery wins the selection fold. -/
lemma c3_best_eval :
    CommandLogic.find_best_intercept_solution c3_threat [c3_battery]
      = .ok (some c3_solution) := by
  have hskip : ¬ (c3_battery.status ≠ "active" ∨ c3_battery.ammo_count ≤ 0) := by
    norm_num [c3_battery]
  simp only [CommandLogic.find_best_intercept_solution, CommandLogic.find_best_aux,
    if_neg hskip, c3_calc_eval]
  norm_num [c3_solution, Except.map]

/-- Evaluation: after the ledger reset, `consider_engagement` publishes a
fourth order for `m3`. -/
lemma c3_recreated_consider_eval :
    CommandLogic.consider_engagement c3_recreated_state "m3" = some c3_solution := by
  simp [CommandLogic.consider_engagement, CommandLogic.engage_from_best,
    CommandLogic.dict_get, c3_recreated_state, c3_best_eval]

/-- C3: the retry cap holds only pointwise.  With three recorded attempts no
order is issued for `m3`; but the every-second housekeeping pass
`cleanup_old_threats` erases the threat together with its attempt ledger —
its expiry guard compares the epoch clock with a time-to-impact duration and
is therefore always true — and once the next position update recreates the
threat, the command center publishes a fourth engagement order for the same
target: the claimed lifetime cap of `max_retries = 3` orders fails in the
source. -/
theorem retry_cap_defeated_by_cleanup :
    CommandLogic.consider_engagement c3_capped_state "m3" = none
    ∧ CommandLogic.cleanup_old_threats 1700000000 c3_capped_state
        = { active_threats := [], available_batteries := [c3_battery],
            engagement_attempts := [] }
    ∧ CommandLogic.attempt_count c3_recreated_state "m3" = 0
    ∧ CommandLogic.consider_engagement c3_recreated_state "m3"
        = some c3_solution :=
  ⟨c3_capped_consider_eval, c3_cleanup_eval, rfl, c3_recreated_consider_eval⟩

/-! ### Theorems for the engine event-pipeline claim C4 -/

/-- A position event broadcast for an id means the id is in the live map. -/
lemma broadcast_position_mem (s : SimulationEngine.EngineState) (mid : String)
    (h : SimulationEngine.EngineEvent.position mid
      ∈ SimulationEngine.broadcast_missile_positions s) :
    mid ∈ SimulationEngine.missile_ids s := by
  unfold SimulationEngine.broadcast_missile_positions at h
  rw [List.mem_map] at h
  obtain ⟨p, hp, he⟩ := h
  injection he with he
  rw [SimulationEngine.missile_ids, List.mem_map]
  exact ⟨p, List.mem_of_mem_filter hp, he⟩

/-- Deleting an id removes it from the live map. -/
lemma not_mem_remove (s : SimulationEngine.EngineState) (missile_id : String) :
    missile_id ∉ SimulationEngine.missile_ids
      (SimulationEngine.remove_missile s missile_id) := by
  intro h
  rw [SimulationEngine.missile_ids, List.mem_map] at h
  obtain ⟨p, hp, hpe⟩ := h
  simp only [SimulationEngine.remove_missile] at hp
  have hne := List.of_mem_filter hp
  simp only [decide_eq_true_eq] at hne
  exact hne hpe

/-- Deleting any id preserves the absence of another. -/
lemma not_mem_remove_other (s : SimulationEngine.EngineState)
    (missile_id other_id : String)
    (h : missile_id ∉ SimulationEngine.missile_ids s) :
    missile_id ∉ SimulationEngine.missile_ids
      (SimulationEngine.remove_missile s other_id) := by
  intro hmem
  rw [SimulationEngine.missile_ids, List.mem_map] at hmem
  obtain ⟨p, hp, hpe⟩ := hmem
  apply h
  rw [SimulationEngine.missile_ids, List.mem_map]
  simp only [SimulationEngine.remove_missile] at hp
  exact ⟨p, List.mem_of_mem_filter hp, hpe⟩

/-- Case analysis: `handle_missile_impact` either removes the id and publishes its impact
event, or does nothing. -/
lemma handle_missile_impact_cases (s : SimulationEngine.EngineState)
    (missile_id : String) :
    (missile_id ∈ SimulationEngine.missile_ids s
      ∧ SimulationEngine.handle_missile_impact s missile_id
          = (SimulationEngine.remove_missile s missile_id,
             [SimulationEngine.EngineEvent.impact missile_id]))
    ∨ (missile_id ∉ SimulationEngine.missile_ids s
      ∧ SimulationEngine.handle_missile_impact s missile_id = (s, [])) := by
  by_cases hmem : missile_id ∈ SimulationEngine.missile_ids s
  · exact Or.inl ⟨hmem, by rw [SimulationEngine.handle_missile_impact, if_pos hmem]⟩
  · exact Or.inr ⟨hmem, by rw [SimulationEngine.handle_missile_impact, if_neg hmem]⟩

/-- Case analysis: `handle_intercept` either removes the target and publishes its
intercepted event, or does nothing. -/
lemma handle_intercept_cases (s : SimulationEngine.EngineState)
    (defense_missile_id target_missile_id : String) :
    (target_missile_id ∈ SimulationEngine.missile_ids s
      ∧ SimulationEngine.handle_intercept s defense_missile_id target_missile_id
          = (SimulationEngine.remove_missile s target_missile_id,
             [SimulationEngine.EngineEvent.intercepted target_missile_id]))
    ∨ (target_missile_id ∉ SimulationEngine.missile_ids s
      ∧ SimulationEngine.handle_intercept s defense_missile_id target_missile_id
          = (s, [])) := by
  by_cases hmem : target_missile_id ∈ SimulationEngine.missile_ids s
  · exact Or.inl ⟨hmem, by rw [SimulationEngine.handle_intercept, if_pos hmem]⟩
  · exact Or.inr ⟨hmem, by rw [SimulationEngine.handle_intercept, if_neg hmem]⟩

/-- A physics update never changes the set of live ids. -/
lemma missile_ids_physics (s : SimulationEngine.EngineState)
    (missile_id : String) (update : SimulationEngine.MissileState → SimulationEngine.MissileState) :
    SimulationEngine.missile_ids
        (SimulationEngine.EngineState.mk (s.missiles.map
          (fun p => if p.1 = missile_id then (p.1, update p.2) else p)))
      = SimulationEngine.missile_ids s := by
  rw [SimulationEngine.missile_ids, SimulationEngine.missile_ids, List.map_map]
  apply List.map_congr_left
  intro p _
  by_cases hp : p.1 = missile_id
  · simp [hp]
  · simp [hp]

/-- Absence of an id from the live map is preserved by every operation that
does not launch that id. -/
lemma not_mem_apply_op (s : SimulationEngine.EngineState)
    (op : SimulationEngine.EngineOp) (missile_id : String)
    (h : missile_id ∉ SimulationEngine.missile_ids s)
    (hop : ∀ m, op ≠ SimulationEngine.EngineOp.launch missile_id m) :
    missile_id ∉ SimulationEngine.missile_ids (SimulationEngine.apply_op s op).1 := by
  cases op with
  | launch mid m =>
    have hne : mid ≠ missile_id := by
      intro he; subst he; exact hop m rfl
    simp only [SimulationEngine.apply_op, SimulationEngine.create_missile]
    intro hmem
    rw [SimulationEngine.missile_ids] at hmem
    simp only [List.map_append, List.mem_append] at hmem
    rcases hmem with hmem | hmem
    · exact h hmem
    · simp at hmem
      exact hne hmem.symm
  | impact mid =>
    rcases handle_missile_impact_cases s mid with ⟨_, heq⟩ | ⟨_, heq⟩
    · simp only [SimulationEngine.apply_op, heq]
      exact not_mem_remove_other s missile_id mid h
    · simp only [SimulationEngine.apply_op, heq]
      exact h
  | intercept did tid =>
    simp only [SimulationEngine.apply_op, SimulationEngine.intercept_pair]
    rcases handle_intercept_cases s did tid with ⟨_, heq⟩ | ⟨_, heq⟩ <;>
      rw [heq] <;> dsimp only
    · rcases handle_missile_impact_cases (SimulationEngine.remove_missile s tid) did with
        ⟨_, heq2⟩ | ⟨_, heq2⟩ <;> rw [heq2] <;> dsimp only
      · exact not_mem_remove_other _ missile_id did (not_mem_remove_other s missile_id tid h)
      · exact not_mem_remove_other s missile_id tid h
    · rcases handle_missile_impact_cases s did with ⟨_, heq2⟩ | ⟨_, heq2⟩ <;>
        rw [heq2] <;> dsimp only
      · exact not_mem_remove_other s missile_id did h
      · exact h
  | physics mid update =>
    simp only [SimulationEngine.apply_op]
    rw [missile_ids_physics]
    exact h
  | broadcast =>
    exact h

/-- A dead id never reappears in the event log, provided no launch reuses
it. -/
lemma run_engine_no_position (missile_id : String) :
    ∀ (ops : List SimulationEngine.EngineOp) (s : SimulationEngine.EngineState),
      missile_id ∉ SimulationEngine.missile_ids s →
      SimulationEngine.launches_avoid missile_id ops →
      SimulationEngine.EngineEvent.position missile_id
        ∉ SimulationEngine.run_engine s ops := by
  intro ops
  induction ops with
  | nil => intro s _ _; simp [SimulationEngine.run_engine]
  | cons op rest ih =>
    intro s h hfresh
    have hop : ∀ m, op ≠ SimulationEngine.EngineOp.launch missile_id m := by
      intro m he
      subst he
      exact hfresh missile_id m (List.mem_cons_self _ _) rfl
    have hnext := ih (SimulationEngine.apply_op s op).1
      (not_mem_apply_op s op missile_id h hop)
      (fun mid m hm => hfresh mid m (List.mem_cons_of_mem _ hm))
    have hhere : SimulationEngine.EngineEvent.position missile_id
        ∉ (SimulationEngine.apply_op s op).2 := by
      cases op with
      | launch mid m => simp [SimulationEngine.apply_op]
      | impact mid =>
        rcases handle_missile_impact_cases s mid with ⟨_, heq⟩ | ⟨_, heq⟩ <;>
          simp [SimulationEngine.apply_op, heq]
      | intercept did tid =>
        simp only [SimulationEngine.apply_op, SimulationEngine.intercept_pair]
        rcases handle_intercept_cases s did tid with ⟨_, heq⟩ | ⟨_, heq⟩ <;>
          rw [heq] <;> dsimp only <;>
          [rcases handle_missile_impact_cases (SimulationEngine.remove_missile s tid) did with
            ⟨_, heq2⟩ | ⟨_, heq2⟩;
           rcases handle_missile_impact_cases s did with ⟨_, heq2⟩ | ⟨_, heq2⟩] <;>
          rw [heq2] <;> simp
      | physics mid update => simp [SimulationEngine.apply_op]
      | broadcast =>
        intro hmem
        exact h (broadcast_position_mem s missile_id hmem)
    rw [SimulationEngine.run_engine, List.mem_append]
    rintro (hmem | hmem)
    · exact hhere hmem
    · exact hnext hmem

/-- An event list with no position event for the id vacuously satisfies the
after-terminal property. -/
lemma napt_of_no_position (missile_id : String) :
    ∀ (l : List SimulationEngine.EngineEvent),
      SimulationEngine.EngineEvent.position missile_id ∉ l →
      SimulationEngine.no_position_after_terminal missile_id l := by
  intro l
  induction l with
  | nil => intro _; trivial
  | cons e rest ih =>
    intro h
    exact ⟨fun _ hmem => h (List.mem_cons_of_mem _ hmem),
      ih (fun hmem => h (List.mem_cons_of_mem _ hmem))⟩

/-- An event list with no terminal event for the id vacuously satisfies the
after-terminal property. -/
lemma napt_of_no_terminal (missile_id : String) :
    ∀ (l : List SimulationEngine.EngineEvent),
      (∀ e ∈ l, ¬ SimulationEngine.is_terminal_for missile_id e) →
      SimulationEngine.no_position_after_terminal missile_id l := by
  intro l
  induction l with
  | nil => intro _; trivial
  | cons e rest ih =>
    intro h
    exact ⟨fun ht => absurd ht (h e (List.mem_cons_self _ _)),
      ih (fun e' he' => h e' (List.mem_cons_of_mem _ he'))⟩

/-- The after-terminal property concatenates: it must hold of both parts,
and a terminal in the first part must exclude the position event from the
second. -/
lemma napt_append (missile_id : String)
    (xs ys : List SimulationEngine.EngineEvent)
    (hxs : SimulationEngine.no_position_after_terminal missile_id xs)
    (hterm : (∃ e ∈ xs, SimulationEngine.is_terminal_for missile_id e) →
      SimulationEngine.EngineEvent.position missile_id ∉ ys)
    (hys : SimulationEngine.no_position_after_terminal missile_id ys) :
    SimulationEngine.no_position_after_terminal missile_id (xs ++ ys) := by
  induction xs with
  | nil => simpa using hys
  | cons e xs ih =>
    rw [List.cons_append]
    refine ⟨?_, ?_⟩
    · intro hte
      intro hmem
      rcases List.mem_append.mp hmem with hmem | hmem
      · exact hxs.1 hte hmem
      · exact hterm ⟨e, List.mem_cons_self _ _, hte⟩ hmem
    · exact ih hxs.2
        (fun hex => hterm (hex.elim
          (fun e' he' => ⟨e', List.mem_cons_of_mem _ he'.1, he'.2⟩)))

/-- The event list of a single operation satisfies the after-terminal
property. -/
lemma apply_op_napt (s : SimulationEngine.EngineState)
    (op : SimulationEngine.EngineOp) (missile_id : String) :
    SimulationEngine.no_position_after_terminal missile_id
      (SimulationEngine.apply_op s op).2 := by
  cases op with
  | launch mid m => exact napt_of_no_position _ _ (by simp [SimulationEngine.apply_op])
  | impact mid =>
    apply napt_of_no_position
    rcases handle_missile_impact_cases s mid with ⟨_, heq⟩ | ⟨_, heq⟩ <;>
      simp [SimulationEngine.apply_op, heq]
  | intercept did tid =>
    apply napt_of_no_position
    simp only [SimulationEngine.apply_op, SimulationEngine.intercept_pair]
    rcases handle_intercept_cases s did tid with ⟨_, heq⟩ | ⟨_, heq⟩ <;>
      rw [heq] <;> dsimp only <;>
      [rcases handle_missile_impact_cases (SimulationEngine.remove_missile s tid) did with
        ⟨_, heq2⟩ | ⟨_, heq2⟩;
       rcases handle_missile_impact_cases s did with ⟨_, heq2⟩ | ⟨_, heq2⟩] <;>
      rw [heq2] <;> simp
  | physics mid update => exact napt_of_no_position _ _ (by simp [SimulationEngine.apply_op])
  | broadcast =>
    apply napt_of_no_terminal
    intro e he ht
    simp only [SimulationEngine.apply_op] at he
    unfold SimulationEngine.broadcast_missile_positions at he
    rw [List.mem_map] at he
    obtain ⟨p, _, hpe⟩ := he
    rw [← hpe] at ht
    exact ht

/-- An operation that emits a terminal event for an id leaves the live map
without that id. -/
lemma apply_op_terminal_removes (s : SimulationEngine.EngineState)
    (op : SimulationEngine.EngineOp) (missile_id : String)
    (e : SimulationEngine.EngineEvent)
    (he : e ∈ (SimulationEngine.apply_op s op).2)
    (ht : SimulationEngine.is_terminal_for missile_id e) :
    missile_id ∉ SimulationEngine.missile_ids (SimulationEngine.apply_op s op).1 := by
  cases op with
  | launch mid m => simp [SimulationEngine.apply_op, SimulationEngine.create_missile] at he
  | physics mid update => simp [SimulationEngine.apply_op] at he
  | broadcast =>
    exfalso
    simp only [SimulationEngine.apply_op] at he
    unfold SimulationEngine.broadcast_missile_positions at he
    rw [List.mem_map] at he
    obtain ⟨p, _, hpe⟩ := he
    rw [← hpe] at ht
    exact ht
  | impact mid =>
    rcases handle_missile_impact_cases s mid with ⟨_, heq⟩ | ⟨_, heq⟩ <;>
      simp only [SimulationEngine.apply_op, heq] at he ⊢
    · have he' : e = SimulationEngine.EngineEvent.impact mid := by simpa using he
      subst he'
      have hmid : mid = missile_id := ht
      subst hmid
      exact not_mem_remove s mid
    · simp at he
  | intercept did tid =>
    simp only [SimulationEngine.apply_op, SimulationEngine.intercept_pair] at he ⊢
    rcases handle_intercept_cases s did tid with ⟨_, heq⟩ | ⟨_, heq⟩ <;>
      rw [heq] at he ⊢ <;> dsimp only at he ⊢
    · rcases handle_missile_impact_cases (SimulationEngine.remove_missile s tid) did with
        ⟨_, heq2⟩ | ⟨_, heq2⟩ <;> rw [heq2] at he ⊢ <;> dsimp only at he ⊢
      · simp only [List.mem_append, List.mem_singleton] at he
        rcases he with he | he
        · subst he
          have htid : tid = missile_id := ht
          subst htid
          exact not_mem_remove_other _ _ _ (not_mem_remove s tid)
        · subst he
          have hdid : did = missile_id := ht
          subst hdid
          exact not_mem_remove _ _
      · have he' : e = SimulationEngine.EngineEvent.intercepted tid := by simpa using he
        subst he'
        have htid : tid = missile_id := ht
        subst htid
        exact not_mem_remove s tid
    · rcases handle_missile_impact_cases s did with ⟨_, heq2⟩ | ⟨_, heq2⟩ <;>
        rw [heq2] at he ⊢ <;> dsimp only at he ⊢
      · have he' : e = SimulationEngine.EngineEvent.impact did := by simpa using he
        subst he'
        have hdid : did = missile_id := ht
        subst hdid
        exact not_mem_remove s did
      · simp at he

/-- The full event log of any operation sequence satisfies the
after-terminal property, provided launches never reuse the id. -/
lemma run_engine_napt (missile_id : String) :
    ∀ (ops : List SimulationEngine.EngineOp) (s : SimulationEngine.EngineState),
      SimulationEngine.launches_avoid missile_id ops →
      SimulationEngine.no_position_after_terminal missile_id
        (SimulationEngine.run_engine s ops) := by
  intro ops
  induction ops with
  | nil => intro s _; trivial
  | cons op rest ih =>
    intro s hfresh
    rw [SimulationEngine.run_engine]
    apply napt_append
    · exact apply_op_napt s op missile_id
    · rintro ⟨e, he, hte⟩
      exact run_engine_no_position missile_id rest (SimulationEngine.apply_op s op).1
        (apply_op_terminal_removes s op missile_id e he hte)
        (fun mid m hm => hfresh mid m (List.mem_cons_of_mem _ hm))
    · exact ih (SimulationEngine.apply_op s op).1
        (fun mid m hm => hfresh mid m (List.mem_cons_of_mem _ hm))

/-- C4: once the engine publishes the terminal event (`missile.impact` or
`missile.intercepted`) for a missile id, it never again publishes a
`missile.position` for that id in any continuation of the run (launches use
fresh uuids, so they never reuse the id); moreover the munition is removed
from the live map by `handle_missile_impact` before the terminal event is
published, and `broadcast_missile_positions` publishes positions only for
ids still present in the live map. -/
theorem terminal_event_is_last (missile_id : String)
    (s : SimulationEngine.EngineState) (ops : List SimulationEngine.EngineOp)
    (hfresh : SimulationEngine.launches_avoid missile_id ops) :
    SimulationEngine.no_position_after_terminal missile_id
        (SimulationEngine.run_engine s ops)
    ∧ missile_id ∉ SimulationEngine.missile_ids
        (SimulationEngine.handle_missile_impact s missile_id).1
    ∧ ∀ mid, SimulationEngine.EngineEvent.position mid
          ∈ SimulationEngine.broadcast_missile_positions s →
        mid ∈ SimulationEngine.missile_ids s := by
  refine ⟨run_engine_napt missile_id ops s hfresh, ?_, ?_⟩
  · rcases handle_missile_impact_cases s missile_id with ⟨_, heq⟩ | ⟨hmem, heq⟩ <;>
      rw [heq]
    · exact not_mem_remove s missile_id
    · exact hmem
  · intro mid hmem
    exact broadcast_position_mem s mid hmem

/-- C4 witness: the theorem applied to a concrete run that terminates
missile `A`, launches a fresh missile `B` and then broadcasts positions. -/
theorem terminal_event_is_last_witness :
    SimulationEngine.launches_avoid "A" c4_ops
    ∧ SimulationEngine.no_position_after_terminal "A"
        (SimulationEngine.run_engine c4_state c4_ops) := by
  have hfresh : SimulationEngine.launches_avoid "A" c4_ops := by
    intro mid m hmem
    simp only [c4_ops, List.mem_cons, List.not_mem_nil, or_false] at hmem
    rcases hmem with h | h | h
    · exact SimulationEngine.EngineOp.noConfusion h
    · injection h with h1 h2
      subst h1
      decide
    · exact SimulationEngine.EngineOp.noConfusion h
  exact ⟨hfresh, (terminal_event_is_last "A" c4_state c4_ops hfresh).1⟩

end MissileDefense
